import Mathlib

/-!
Shallow embedding of the Neural-Hand gesture-control pipeline
(`gesture_recognizer.py`, `action_controller.py`, `main.py`).

Real-valued quantities are modelled over `ℚ`; the Euclidean-norm routine
(`np.linalg.norm` on a planar difference vector) is abstracted as a
parameter `s : ℚ → ℚ` applied to the squared planar distance, so every
definition stays executable while keeping the geometric structure of the
source.  Python's `int(...)` conversion (truncation toward zero) is
modelled by `ratTrunc`.
-/

namespace NeuralHand

/-- The `GestureType` enumeration from `gesture_recognizer.py`. -/
inductive GestureType where
  | NONE
  | INDEX_EXTENDED
  | THUMB_INDEX_PINCH
  | THUMB_MIDDLE_PINCH
  | TWO_FINGER_SCROLL
  | THREE_FINGER_CLOSE
  | THREE_FINGER_SPREAD
  | CLOSED_FIST
  | OPEN_PALM
  | THUMB_DOWN
  | THUMB_PINKY_EXTENDED
  deriving DecidableEq, Repr

/-- The `ActionType` enumeration from `action_controller.py`. -/
inductive ActionType where
  | MOVE_MOUSE
  | LEFT_CLICK
  | RIGHT_CLICK
  | SCROLL
  | DRAG_START
  | DRAG_END
  | MINIMIZE_WINDOW
  | MAXIMIZE_WINDOW
  | CLOSE_WINDOW
  | VOLUME_UP
  | VOLUME_DOWN
  deriving DecidableEq, Repr

/-- One hand landmark: an `(x, y, z)` triple of normalized coordinates. -/
structure Pt where
  x : ℚ
  y : ℚ
  z : ℚ
  deriving DecidableEq, Repr

/-- Python `int(...)` applied to a rational: truncation toward zero. -/
def ratTrunc (q : ℚ) : ℤ := if 0 ≤ q then ⌊q⌋ else ⌈q⌉

/-- Squared planar (x/y only) distance between two landmarks; the source
computes `np.linalg.norm(p[:2] - q[:2])`, which is the square root of this
value. -/
def sqPlanar (p q : Pt) : ℚ := (p.x - q.x) ^ 2 + (p.y - q.y) ^ 2

/-- Landmark lookup `landmarks[i]` (the source indexes a length-21 array;
out-of-range access never occurs past the length guard). -/
def lm (landmarks : List Pt) (i : ℕ) : Pt := landmarks.getD i ⟨0, 0, 0⟩

/-- Source default `self.pinch_threshold = 0.05`. -/
def pinch_threshold : ℚ := 5 / 100

/-- Source default `self.finger_extended_threshold = 0.6`. -/
def finger_extended_threshold : ℚ := 6 / 10

/-- Source default `self.cooldown_time = 0.5`. -/
def cooldown_time : ℚ := 5 / 10

/-- Model of `GestureRecognizer._is_finger_extended`: the tip-to-wrist /
mcp-to-wrist distance ratio test.  `s` is the planar-norm routine applied
to a squared distance. -/
def is_finger_extended (s : ℚ → ℚ) (landmarks : List Pt) (tip_idx mcp_idx : ℕ) : Bool :=
  let tip := lm landmarks tip_idx
  let mcp := lm landmarks mcp_idx
  let wrist := lm landmarks 0
  let tip_to_wrist := s (sqPlanar tip wrist)
  let mcp_to_wrist := s (sqPlanar mcp wrist)
  let ratio := tip_to_wrist / (mcp_to_wrist + 1 / 1000000)
  decide (ratio > finger_extended_threshold)

/-- The confidence computation of `GestureRecognizer._detect_pinch` as a
function of the planar distance between the two fingertips. -/
def detect_pinch_conf (distance : ℚ) : ℚ :=
  if distance < pinch_threshold then
    max 0 (min 1 (1 - distance / pinch_threshold))
  else 0

/-- Model of `GestureRecognizer._detect_pinch`. -/
def detect_pinch (s : ℚ → ℚ) (landmarks : List Pt) (finger1_idx finger2_idx : ℕ) : ℚ :=
  detect_pinch_conf (s (sqPlanar (lm landmarks finger1_idx) (lm landmarks finger2_idx)))

/-- The `[index, middle, ring, pinky]` extension flags recomputed inside
each whole-hand detector (each source detector calls
`_is_finger_extended` with the same four tip/MCP index pairs). -/
def fingers_extended (s : ℚ → ℚ) (landmarks : List Pt) : List Bool :=
  [is_finger_extended s landmarks 8 5,
   is_finger_extended s landmarks 12 9,
   is_finger_extended s landmarks 16 13,
   is_finger_extended s landmarks 20 17]

/-- Body of `GestureRecognizer._detect_closed_fist` as a function of the
four extension flags: count the closed fingers, confidence `count / 4`,
returned only when above `0.75`. -/
def closed_fist_of_flags (flags : List Bool) : ℚ :=
  let closed_count : ℕ := flags.count false
  let confidence : ℚ := (closed_count : ℚ) / 4
  if confidence > 75 / 100 then confidence else 0

/-- Body of `GestureRecognizer._detect_open_palm` as a function of the
four extension flags. -/
def open_palm_of_flags (flags : List Bool) : ℚ :=
  let extended_count : ℕ := flags.count true
  let confidence : ℚ := (extended_count : ℚ) / 4
  if confidence > 75 / 100 then confidence else 0

/-- Model of `GestureRecognizer._detect_closed_fist`. -/
def detect_closed_fist (s : ℚ → ℚ) (landmarks : List Pt) : ℚ :=
  closed_fist_of_flags (fingers_extended s landmarks)

/-- Model of `GestureRecognizer._detect_open_palm`. -/
def detect_open_palm (s : ℚ → ℚ) (landmarks : List Pt) : ℚ :=
  open_palm_of_flags (fingers_extended s landmarks)

/-- Number of extended non-thumb fingers (the `extended_count` of
`_detect_open_palm`). -/
def extended_count (s : ℚ → ℚ) (landmarks : List Pt) : ℕ :=
  (fingers_extended s landmarks).count true

/-- Model of `GestureRecognizer._detect_index_extended`. -/
def detect_index_extended (s : ℚ → ℚ) (landmarks : List Pt) : ℚ :=
  match fingers_extended s landmarks with
  | [index_e, middle_e, ring_e, pinky_e] =>
    if index_e && !middle_e && !ring_e && !pinky_e then 9 / 10
    else if index_e then 5 / 10
    else 0
  | _ => 0

/-- Model of `GestureRecognizer._detect_two_finger_scroll`. -/
def detect_two_finger_scroll (s : ℚ → ℚ) (landmarks : List Pt) : ℚ :=
  match fingers_extended s landmarks with
  | [index_e, middle_e, ring_e, pinky_e] =>
    if index_e && middle_e && !ring_e && !pinky_e then 9 / 10 else 0
  | _ => 0

/-- Model of `GestureRecognizer._detect_three_finger_close`. -/
def detect_three_finger_close (s : ℚ → ℚ) (landmarks : List Pt) : ℚ :=
  let dist_index_middle := s (sqPlanar (lm landmarks 8) (lm landmarks 12))
  let dist_middle_ring := s (sqPlanar (lm landmarks 12) (lm landmarks 16))
  let threshold : ℚ := 8 / 100
  if dist_index_middle < threshold ∧ dist_middle_ring < threshold then
    max 0 (min 1 (1 - (dist_index_middle + dist_middle_ring) / (2 * threshold)))
  else 0

/-- Model of `GestureRecognizer._detect_three_finger_spread`. -/
def detect_three_finger_spread (s : ℚ → ℚ) (landmarks : List Pt) : ℚ :=
  match fingers_extended s landmarks with
  | [index_e, middle_e, ring_e, _pinky_e] =>
    if !(index_e && middle_e && ring_e) then 0
    else
      let dist_index_middle := s (sqPlanar (lm landmarks 8) (lm landmarks 12))
      let dist_middle_ring := s (sqPlanar (lm landmarks 12) (lm landmarks 16))
      let min_spread : ℚ := 1 / 10
      if dist_index_middle > min_spread ∧ dist_middle_ring > min_spread then 8 / 10
      else 0
  | _ => 0

/-- Model of `GestureRecognizer._detect_thumb_down`. -/
def detect_thumb_down (_s : ℚ → ℚ) (landmarks : List Pt) : ℚ :=
  let thumb_tip := lm landmarks 4
  let wrist := lm landmarks 0
  if thumb_tip.y > wrist.y then
    min 1 ((thumb_tip.y - wrist.y) / (3 / 10))
  else 0

/-- Model of `GestureRecognizer._detect_thumb_pinky_extended`. -/
def detect_thumb_pinky_extended (s : ℚ → ℚ) (landmarks : List Pt) : ℚ :=
  let thumb_dist := s (sqPlanar (lm landmarks 4) (lm landmarks 0))
  let pinky_dist := s (sqPlanar (lm landmarks 20) (lm landmarks 0))
  match fingers_extended s landmarks with
  | [index_e, middle_e, ring_e, _pinky_e] =>
    if thumb_dist > 15 / 100 ∧ pinky_dist > 15 / 100 ∧ !index_e ∧ !middle_e ∧ !ring_e then
      85 / 100
    else 0
  | _ => 0

/-- One history entry: a `(GestureType, confidence)` pair. -/
abbrev HistEntry := GestureType × ℚ

/-- Confidence values stored for a gesture class, in window order: the value
list of `gesture_counts[gesture]` in `_get_smoothed_gesture`. -/
def confsOf (history : List HistEntry) (g : GestureType) : List ℚ :=
  (history.filter (fun p => p.1 = g)).map Prod.snd

/-- Model of `avg_confidence = sum(confidences) / len(confidences)` for a class. -/
def avgOf (history : List HistEntry) (g : GestureType) : ℚ :=
  (confsOf history g).sum / ((confsOf history g).length : ℚ)

/-- Model of `score = len(confidences) * avg_confidence` for a class. -/
def scoreOf (history : List HistEntry) (g : GestureType) : ℚ :=
  ((confsOf history g).length : ℚ) * avgOf history g

/-- Keys of the Python dict `gesture_counts` in insertion order: the distinct
gesture classes of the window, ordered by first occurrence. -/
def firstOccs (gs : List GestureType) : List GestureType :=
  gs.foldl (fun (acc : List GestureType) g => if g ∈ acc then acc else acc ++ [g]) []

/-- The strict-improvement scan of `_get_smoothed_gesture`
(`if score > best_score: best_score, best_gesture = score, gesture`). -/
def bestStep (history : List HistEntry) (best : HistEntry) (g : GestureType) : HistEntry :=
  if best.2 < scoreOf history g then (g, scoreOf history g) else best

/-- Model of `GestureRecognizer._get_smoothed_gesture`. -/
def get_smoothed_gesture (history : List HistEntry) : HistEntry :=
  if history = [] then (GestureType.NONE, 0)
  else
    let keys : List GestureType := firstOccs (history.map Prod.fst)
    let best : HistEntry := keys.foldl (bestStep history) (GestureType.NONE, 0)
    let avg_confidence := if best.1 ∈ keys then avgOf history best.1 else 0
    (best.1, avg_confidence)

/-- Python `max(items, key=lambda x: x[1])`: the first item attaining the
maximal second component. -/
def maxBySnd (items : List HistEntry) : HistEntry :=
  match items with
  | [] => (GestureType.NONE, 0)
  | first :: rest => rest.foldl (fun best x => if best.2 < x.2 then x else best) first

/-- Model of `deque(maxlen=5).append`: push an entry, keeping the five most recent. -/
def pushHistory (history : List HistEntry) (entry : HistEntry) : List HistEntry :=
  let h := history ++ [entry]
  h.drop (h.length - 5)

/-- Model of `GestureRecognizer.recognize_gesture`, returning the smoothed result
together with the updated gesture history. -/
def recognize_gesture (s : ℚ → ℚ) (landmarks : List Pt) (history : List HistEntry) :
    HistEntry × List HistEntry :=
  if landmarks.isEmpty ∨ landmarks.length ≠ 21 then ((GestureType.NONE, 0), history)
  else
    let gestures : List HistEntry :=
      [(GestureType.THUMB_INDEX_PINCH, detect_pinch s landmarks 4 8),
       (GestureType.THUMB_MIDDLE_PINCH, detect_pinch s landmarks 4 12),
       (GestureType.CLOSED_FIST, detect_closed_fist s landmarks),
       (GestureType.OPEN_PALM, detect_open_palm s landmarks),
       (GestureType.TWO_FINGER_SCROLL, detect_two_finger_scroll s landmarks),
       (GestureType.THREE_FINGER_CLOSE, detect_three_finger_close s landmarks),
       (GestureType.THREE_FINGER_SPREAD, detect_three_finger_spread s landmarks),
       (GestureType.THUMB_DOWN, detect_thumb_down s landmarks),
       (GestureType.THUMB_PINKY_EXTENDED, detect_thumb_pinky_extended s landmarks),
       (GestureType.INDEX_EXTENDED, detect_index_extended s landmarks)]
    let best := maxBySnd gestures
    let resolved := if best.2 < 5 / 10 then (GestureType.NONE, (0 : ℚ)) else best
    let history := pushHistory history resolved
    (get_smoothed_gesture history, history)

/-- Model of `GestureRecognizer.can_activate_gesture`: the per-gesture-class cooldown
gate.  `last_activation_time` is the recognizer's timestamp dictionary and
`now` the value of `time.time()`. -/
def can_activate_gesture (last_activation_time : List (GestureType × ℚ)) (now : ℚ)
    (gesture : GestureType) : Bool :=
  if gesture = GestureType.NONE then false
  else
    let last_time := (last_activation_time.lookup gesture).getD 0
    decide (now - last_time > cooldown_time)

/-- Model of `GestureRecognizer.activate_gesture`. -/
def activate_gesture (last_activation_time : List (GestureType × ℚ)) (now : ℚ)
    (gesture : GestureType) : List (GestureType × ℚ) :=
  (gesture, now) :: last_activation_time.filter (fun p => p.1 ≠ gesture)

/-- Model of `ActionController.action_cooldowns.get(action_type, 0)`. -/
def action_cooldowns (a : ActionType) : ℚ :=
  match a with
  | ActionType.LEFT_CLICK => 1 / 10
  | ActionType.RIGHT_CLICK => 1 / 10
  | ActionType.SCROLL => 5 / 100
  | ActionType.MINIMIZE_WINDOW => 1
  | ActionType.MAXIMIZE_WINDOW => 1
  | ActionType.CLOSE_WINDOW => 1
  | ActionType.VOLUME_UP => 1 / 10
  | ActionType.VOLUME_DOWN => 1 / 10
  | _ => 0

/-- Mutable state of `ActionController`. -/
structure Ctrl where
  screen_width : ℤ
  screen_height : ℤ
  last_action_time : List (ActionType × ℚ)
  is_dragging : Bool
  drag_start_position : Option (ℤ × ℤ)
  emergency_stop : Bool
  last_mouse_position : Option (ℤ × ℤ)
  mouse_smoothing : ℚ
  deriving DecidableEq, Repr

/-- A freshly constructed `ActionController` (screen size is read from the
environment). -/
def ctrlInit (w h : ℤ) : Ctrl :=
  { screen_width := w, screen_height := h, last_action_time := [],
    is_dragging := false, drag_start_position := none,
    emergency_stop := false, last_mouse_position := none,
    mouse_smoothing := 3 / 10 }

/-- Model of `ActionController.can_execute_action`. -/
def can_execute_action (st : Ctrl) (now : ℚ) (action_type : ActionType) : Bool :=
  if st.emergency_stop then false
  else
    let last_time := (st.last_action_time.lookup action_type).getD 0
    let cooldown := action_cooldowns action_type
    decide (now - last_time > cooldown)

/-- The pixel target of `move_mouse` before smoothing:
`int(normalized * size)` clamped to `[0, size - 1]`. -/
def clamped_target (normalized : ℚ) (size : ℤ) : ℤ :=
  max 0 (min (ratTrunc (normalized * (size : ℚ))) (size - 1))

/-- The smoothing line of `move_mouse`:
`int(prev + (target - prev) * (1 - mouse_smoothing))`. -/
def mouse_smooth_step (smoothing : ℚ) (target prev : ℤ) : ℤ :=
  ratTrunc ((prev : ℚ) + ((target : ℚ) - (prev : ℚ)) * (1 - smoothing))

/-- Model of `ActionController.move_mouse`: returns the success flag and the updated
controller state (the `pyautogui.moveTo` call is the external sink). -/
def move_mouse (st : Ctrl) (normalized_x normalized_y : ℚ) : Bool × Ctrl :=
  if st.emergency_stop then (false, st)
  else
    let target_x := clamped_target normalized_x st.screen_width
    let target_y := clamped_target normalized_y st.screen_height
    match st.last_mouse_position with
    | some (prev_x, prev_y) =>
      let target_x := mouse_smooth_step st.mouse_smoothing target_x prev_x
      let target_y := mouse_smooth_step st.mouse_smoothing target_y prev_y
      (true, { st with last_mouse_position := some (target_x, target_y) })
    | none =>
      (true, { st with last_mouse_position := some (target_x, target_y) })

/-- Repeated calls of `move_mouse` with the same normalized target. -/
def move_mouse_iter (st : Ctrl) (normalized_x normalized_y : ℚ) (k : ℕ) : Ctrl :=
  (fun st => (move_mouse st normalized_x normalized_y).2)^[k] st

/-- Model of `ActionController.start_drag` (`cur` is `pyautogui.position()`). -/
def start_drag (st : Ctrl) (cur : ℤ × ℤ) : Bool × Ctrl :=
  if st.is_dragging then (false, st)
  else (true, { st with is_dragging := true, drag_start_position := some cur })

/-- Model of `ActionController.end_drag`. -/
def end_drag (st : Ctrl) : Bool × Ctrl :=
  if !st.is_dragging then (false, st)
  else (true, { st with is_dragging := false, drag_start_position := none })

/-- Model of `ActionController.reset`. -/
def reset (st : Ctrl) : Ctrl :=
  let st := if st.is_dragging then (end_drag st).2 else st
  { st with last_action_time := [], last_mouse_position := none,
            emergency_stop := false }

/-- Model of `GestureControlApp.map_to_screen_coordinates`. -/
def map_to_screen_coordinates (control_zone_margin hand_x hand_y : ℚ) : ℚ × ℚ :=
  let mapped_x := (hand_x - control_zone_margin) / (1 - 2 * control_zone_margin)
  let mapped_y := (hand_y - control_zone_margin) / (1 - 2 * control_zone_margin)
  (max 0 (min 1 mapped_x), max 0 (min 1 mapped_y))

/-- The `TWO_FINGER_SCROLL` branch of
`GestureControlApp.execute_gesture_action`: given the current index-tip
vertical coordinate and the recorded scroll origin, decide whether a scroll
is dispatched and with which amount. -/
def scroll_dispatch (current_y scroll_start_y : ℚ) : Option ℤ :=
  let delta_y := current_y - scroll_start_y
  if |delta_y| > 2 / 100 then some (ratTrunc (-delta_y * 150)) else none

/-- Modelled from the claim's words for C3: scroll dispatched iff
`|current_y − origin_y| > 0.02`, with amount `round(−(current_y − origin_y) × 150)`. -/
def scroll_dispatch_claimed (current_y scroll_start_y : ℚ) : Option ℤ :=
  if |current_y - scroll_start_y| > 2 / 100 then
    some (round (-(current_y - scroll_start_y) * 150))
  else none

/-- The amended C3 dispatch rule: like the claim but with Python's `int`
truncation toward zero in place of rounding. -/
def scroll_dispatch_amended (current_y scroll_start_y : ℚ) : Option ℤ :=
  if |current_y - scroll_start_y| > 2 / 100 then
    some (ratTrunc (-(current_y - scroll_start_y) * 150))
  else none

/-- A controller with the emergency stop engaged. -/
def emergencyCtrl : Ctrl := { ctrlInit 1920 1080 with emergency_stop := true }

/-- A controller in the middle of a drag, with stale cooldown and pointer
state, used to exercise `reset`. -/
def busyCtrl : Ctrl :=
  { ctrlInit 1920 1080 with
      is_dragging := true, drag_start_position := some (7, 9),
      last_action_time := [(ActionType.LEFT_CLICK, 10)],
      last_mouse_position := some (3, 4), emergency_stop := true }

/-- C2: any landmark sequence whose length is not 21 (including the empty
one) makes `recognize_gesture` return the null gesture with confidence 0,
leaving the history untouched. -/
theorem recognize_gesture_wrong_length (s : ℚ → ℚ) (landmarks : List Pt)
    (history : List HistEntry) (h : landmarks.length ≠ 21) :
    recognize_gesture s landmarks history = ((GestureType.NONE, 0), history) := by
  unfold recognize_gesture
  rw [if_pos (Or.inr h)]

/-- Witness for C2 at the empty landmark list. -/
theorem recognize_gesture_wrong_length_witness :
    ([] : List Pt).length ≠ 21 ∧
      recognize_gesture (fun q => q) [] [] = ((GestureType.NONE, 0), []) :=
  ⟨by decide, recognize_gesture_wrong_length (fun q => q) [] [] (by decide)⟩

/-- C5: the pinch confidence as a function of the planar fingertip distance
`d`: zero for `d ≥ pinch_threshold`, exactly `1 − d / pinch_threshold` for
`0 ≤ d < pinch_threshold`, strictly decreasing there, and exactly 1 at
`d = 0`. -/
theorem pinch_confidence_law :
    (∀ d : ℚ, pinch_threshold ≤ d → detect_pinch_conf d = 0) ∧
    (∀ d : ℚ, 0 ≤ d → d < pinch_threshold →
      detect_pinch_conf d = 1 - d / pinch_threshold) ∧
    (∀ d₁ d₂ : ℚ, 0 ≤ d₁ → d₁ < d₂ → d₂ < pinch_threshold →
      detect_pinch_conf d₂ < detect_pinch_conf d₁) ∧
    detect_pinch_conf 0 = 1 := by
  have hthr : (0 : ℚ) < pinch_threshold := by norm_num [pinch_threshold]
  have hval : ∀ d : ℚ, 0 ≤ d → d < pinch_threshold →
      detect_pinch_conf d = 1 - d / pinch_threshold := by
    intro d h0 hlt
    have hdiv0 : 0 ≤ d / pinch_threshold := div_nonneg h0 hthr.le
    have hdiv1 : d / pinch_threshold < 1 := (div_lt_one hthr).mpr hlt
    unfold detect_pinch_conf
    rw [if_pos hlt, min_eq_right (by linarith), max_eq_right (by linarith)]
  refine ⟨?_, hval, ?_, ?_⟩
  · intro d hge
    unfold detect_pinch_conf
    rw [if_neg (not_lt.mpr hge)]
  · intro d₁ d₂ h0 h12 h2
    rw [hval d₁ h0 (h12.trans h2), hval d₂ (h0.trans h12.le) h2]
    have : d₁ / pinch_threshold < d₂ / pinch_threshold :=
      (div_lt_div_iff_of_pos_right hthr).mpr h12
    linarith
  · rw [hval 0 le_rfl hthr]
    simp

/-- Witness for C5 at the concrete distances `1/10`, `1/40`, `1/80` and `0`. -/
theorem pinch_confidence_law_witness :
    (pinch_threshold ≤ (1 : ℚ) / 10 ∧ detect_pinch_conf (1 / 10) = 0) ∧
    (0 ≤ (1 : ℚ) / 40 ∧ (1 : ℚ) / 40 < pinch_threshold ∧
      detect_pinch_conf (1 / 40) = 1 - (1 / 40) / pinch_threshold) ∧
    (0 ≤ (1 : ℚ) / 80 ∧ (1 : ℚ) / 80 < 1 / 40 ∧ (1 : ℚ) / 40 < pinch_threshold ∧
      detect_pinch_conf (1 / 40) < detect_pinch_conf (1 / 80)) ∧
    detect_pinch_conf 0 = 1 :=
  ⟨⟨by norm_num [pinch_threshold],
    pinch_confidence_law.1 _ (by norm_num [pinch_threshold])⟩,
   ⟨by norm_num, by norm_num [pinch_threshold],
    pinch_confidence_law.2.1 _ (by norm_num) (by norm_num [pinch_threshold])⟩,
   ⟨by norm_num, by norm_num, by norm_num [pinch_threshold],
    pinch_confidence_law.2.2.1 _ _ (by norm_num) (by norm_num)
      (by norm_num [pinch_threshold])⟩,
   pinch_confidence_law.2.2.2⟩

/-- C6: the drag state machine rejects `end_drag` while idle (including at
construction), rejects a second `start_drag` while dragging, and a
`start_drag; end_drag` sequence from idle succeeds twice and returns to the
idle state with no recorded start position. -/
theorem drag_state_machine_law :
    (∀ st : Ctrl, st.is_dragging = false → end_drag st = (false, st)) ∧
    (∀ (w h : ℤ), end_drag (ctrlInit w h) = (false, ctrlInit w h)) ∧
    (∀ (st : Ctrl) (cur : ℤ × ℤ), st.is_dragging = true → start_drag st cur = (false, st)) ∧
    (∀ (w h : ℤ) (cur : ℤ × ℤ),
      (start_drag (ctrlInit w h) cur).1 = true ∧
      (end_drag (start_drag (ctrlInit w h) cur).2).1 = true ∧
      (end_drag (start_drag (ctrlInit w h) cur).2).2.is_dragging = false ∧
      (end_drag (start_drag (ctrlInit w h) cur).2).2.drag_start_position = none) := by
  refine ⟨?_, ?_, ?_, ?_⟩
  · intro st h
    simp [end_drag, h]
  · intro w h
    simp [end_drag, ctrlInit]
  · intro st cur h
    simp [start_drag, h]
  · intro w h cur
    simp [start_drag, end_drag, ctrlInit]

/-- Witness for C6 on a freshly constructed controller and on a concrete
dragging state. -/
theorem drag_state_machine_law_witness :
    end_drag (ctrlInit 1920 1080) = (false, ctrlInit 1920 1080) ∧
    start_drag busyCtrl (0, 0) = (false, busyCtrl) ∧
    (start_drag (ctrlInit 1920 1080) (5, 6)).1 = true ∧
    (end_drag (start_drag (ctrlInit 1920 1080) (5, 6)).2).1 = true ∧
    (end_drag (start_drag (ctrlInit 1920 1080) (5, 6)).2).2.is_dragging = false ∧
    (end_drag (start_drag (ctrlInit 1920 1080) (5, 6)).2).2.drag_start_position = none :=
  ⟨drag_state_machine_law.1 _ rfl,
   drag_state_machine_law.2.2.1 _ _ rfl,
   (drag_state_machine_law.2.2.2 1920 1080 (5, 6)).1,
   (drag_state_machine_law.2.2.2 1920 1080 (5, 6)).2.1,
   (drag_state_machine_law.2.2.2 1920 1080 (5, 6)).2.2.1,
   (drag_state_machine_law.2.2.2 1920 1080 (5, 6)).2.2.2⟩

/-- C9: the control-zone remap computes `(h − m) / (1 − 2m)` clamped to
`[0, 1]` on each coordinate; an input equal to `m` maps to 0, an input
equal to `1 − m` maps to 1, and every output lies in `[0, 1]`. -/
theorem map_to_screen_coordinates_law (m hx hy : ℚ) (_h0 : 0 ≤ m) (h1 : m < 1 / 2) :
    map_to_screen_coordinates m hx hy =
      (max 0 (min 1 ((hx - m) / (1 - 2 * m))), max 0 (min 1 ((hy - m) / (1 - 2 * m)))) ∧
    map_to_screen_coordinates m m m = (0, 0) ∧
    map_to_screen_coordinates m (1 - m) (1 - m) = (1, 1) ∧
    (0 ≤ (map_to_screen_coordinates m hx hy).1 ∧ (map_to_screen_coordinates m hx hy).1 ≤ 1 ∧
     0 ≤ (map_to_screen_coordinates m hx hy).2 ∧ (map_to_screen_coordinates m hx hy).2 ≤ 1) := by
  have hne : 1 - 2 * m ≠ 0 := by intro hc; rw [sub_eq_zero] at hc; linarith
  refine ⟨rfl, ?_, ?_, ?_⟩
  · unfold map_to_screen_coordinates
    rw [sub_self, zero_div]
    norm_num
  · unfold map_to_screen_coordinates
    have : (1 - m - m) / (1 - 2 * m) = 1 := by
      rw [show (1 : ℚ) - m - m = 1 - 2 * m by ring, div_self hne]
    rw [this]
    norm_num
  · unfold map_to_screen_coordinates
    refine ⟨le_max_left _ _, max_le (by norm_num) (min_le_left _ _),
            le_max_left _ _, max_le (by norm_num) (min_le_left _ _)⟩

/-- Witness for C9 at the default margin `0.15` with out-of-zone inputs. -/
theorem map_to_screen_coordinates_law_witness :
    0 ≤ (15 / 100 : ℚ) ∧ (15 / 100 : ℚ) < 1 / 2 ∧
    (map_to_screen_coordinates (15 / 100) 2 (-1) =
      (max 0 (min 1 ((2 - 15 / 100) / (1 - 2 * (15 / 100)))),
       max 0 (min 1 ((-1 - 15 / 100) / (1 - 2 * (15 / 100))))) ∧
     map_to_screen_coordinates (15 / 100) (15 / 100) (15 / 100) = (0, 0) ∧
     map_to_screen_coordinates (15 / 100) (1 - 15 / 100) (1 - 15 / 100) = (1, 1) ∧
     (0 ≤ (map_to_screen_coordinates (15 / 100) 2 (-1)).1 ∧
      (map_to_screen_coordinates (15 / 100) 2 (-1)).1 ≤ 1 ∧
      0 ≤ (map_to_screen_coordinates (15 / 100) 2 (-1)).2 ∧
      (map_to_screen_coordinates (15 / 100) 2 (-1)).2 ≤ 1)) :=
  ⟨by norm_num, by norm_num,
   map_to_screen_coordinates_law (15 / 100) 2 (-1) (by norm_num) (by norm_num)⟩

/-- C10: `reset` always leaves the emergency stop disabled, the cooldown
table empty, the last mouse position cleared, and any in-progress drag
force-ended. -/
theorem reset_clears_state (st : Ctrl) :
    (reset st).emergency_stop = false ∧
    (reset st).last_action_time = [] ∧
    (reset st).last_mouse_position = none ∧
    (reset st).is_dragging = false ∧
    (st.is_dragging = true → (reset st).drag_start_position = none) := by
  unfold reset end_drag
  rcases hd : st.is_dragging <;> simp [hd]

/-- Witness for C10 on a controller mid-drag with the emergency stop set
and stale cooldown and pointer state. -/
theorem reset_clears_state_witness :
    (reset busyCtrl).emergency_stop = false ∧
    (reset busyCtrl).last_action_time = [] ∧
    (reset busyCtrl).last_mouse_position = none ∧
    (reset busyCtrl).is_dragging = false ∧
    (reset busyCtrl).drag_start_position = none :=
  ⟨(reset_clears_state busyCtrl).1, (reset_clears_state busyCtrl).2.1,
   (reset_clears_state busyCtrl).2.2.1, (reset_clears_state busyCtrl).2.2.2.1,
   (reset_clears_state busyCtrl).2.2.2.2 rfl⟩

/-- C1 counterexample: with the emergency stop engaged on the controller,
the recognizer's cooldown gate `can_activate_gesture` still returns `true`
for a gesture class off cooldown — the gate does not consult the
emergency-stop flag at all. -/
theorem emergency_stop_gate_cex :
    emergencyCtrl.emergency_stop = true ∧
    can_activate_gesture [] 1 GestureType.THUMB_INDEX_PINCH = true := by
  constructor
  · rfl
  · simp [can_activate_gesture, List.lookup, cooldown_time]
    norm_num

/-- C1 amended: with the emergency stop set, `move_mouse` moves nothing and
returns failure, and `can_execute_action` is false for every action type
regardless of cooldown state; the per-gesture cooldown gate
`can_activate_gesture`, however, never consults the flag. -/
theorem emergency_stop_blocks_actions (st : Ctrl) (nx ny now : ℚ) (a : ActionType)
    (h : st.emergency_stop = true) :
    move_mouse st nx ny = (false, st) ∧ can_execute_action st now a = false := by
  constructor
  · unfold move_mouse
    rw [if_pos h]
  · unfold can_execute_action
    rw [if_pos h]

/-- Witness for the amended C1 on a concrete emergency-stopped controller. -/
theorem emergency_stop_blocks_actions_witness :
    emergencyCtrl.emergency_stop = true ∧
    move_mouse emergencyCtrl (1 / 2) (1 / 2) = (false, emergencyCtrl) ∧
    can_execute_action emergencyCtrl 100 ActionType.LEFT_CLICK = false :=
  ⟨rfl,
   (emergency_stop_blocks_actions emergencyCtrl (1 / 2) (1 / 2) 100
      ActionType.LEFT_CLICK rfl).1,
   (emergency_stop_blocks_actions emergencyCtrl (1 / 2) (1 / 2) 100
      ActionType.LEFT_CLICK rfl).2⟩

/-- C3 counterexample: at `current_y = 0`, `origin_y = 0.033` the code
dispatches `int(4.95) = 4`, while the claimed `round` formula gives 5. -/
theorem scroll_round_cex :
    scroll_dispatch 0 (33 / 1000) = some 4 ∧
    scroll_dispatch_claimed 0 (33 / 1000) = some 5 ∧
    scroll_dispatch 0 (33 / 1000) ≠ scroll_dispatch_claimed 0 (33 / 1000) := by
  have hd : |(0 : ℚ) - 33 / 1000| > 2 / 100 := by
    rw [abs_sub_comm, abs_of_nonneg (by norm_num)]
    norm_num
  have h1 : scroll_dispatch 0 (33 / 1000) = some 4 := by
    unfold scroll_dispatch
    rw [if_pos hd]
    unfold ratTrunc
    rw [if_pos (by norm_num)]
    norm_num
  have h2 : scroll_dispatch_claimed 0 (33 / 1000) = some 5 := by
    unfold scroll_dispatch_claimed
    rw [if_pos hd]
    norm_num [round_eq]
  refine ⟨h1, h2, ?_⟩
  rw [h1, h2]
  simp

/-- C3 amended: a scroll is dispatched iff `|current_y − origin_y| > 0.02`,
and the dispatched amount is `−(current_y − origin_y) × 150` truncated
toward zero (Python `int`), not rounded. -/
theorem scroll_dispatch_law (current_y scroll_start_y : ℚ) :
    scroll_dispatch current_y scroll_start_y =
      scroll_dispatch_amended current_y scroll_start_y ∧
    ((scroll_dispatch current_y scroll_start_y).isSome ↔
      |current_y - scroll_start_y| > 2 / 100) := by
  refine ⟨rfl, ?_⟩
  by_cases hc : |current_y - scroll_start_y| > 2 / 100
  · simp [scroll_dispatch, hc]
  · simp [scroll_dispatch, hc]

/-- A 21-landmark hand whose index and middle fingers are extended and whose
ring and pinky fingers are not (all z = 0; the wrist sits at the origin). -/
def demoHand : List Pt :=
  [⟨0, 0, 0⟩, ⟨0, 0, 0⟩, ⟨0, 0, 0⟩, ⟨0, 0, 0⟩, ⟨0, 0, 0⟩,
   ⟨1, 0, 0⟩, ⟨0, 0, 0⟩, ⟨0, 0, 0⟩, ⟨1, 0, 0⟩, ⟨1, 0, 0⟩,
   ⟨0, 0, 0⟩, ⟨0, 0, 0⟩, ⟨1, 0, 0⟩, ⟨0, 0, 0⟩, ⟨0, 0, 0⟩,
   ⟨0, 0, 0⟩, ⟨0, 0, 0⟩, ⟨0, 0, 0⟩, ⟨0, 0, 0⟩, ⟨0, 0, 0⟩,
   ⟨0, 0, 0⟩]

/-- The C7 property as a function of the four finger-extension flags shared
by `_detect_closed_fist` and `_detect_open_palm`. -/
theorem fist_palm_flags_lemma (a b c d : Bool) :
    (¬(0 < closed_fist_of_flags [a, b, c, d] ∧ 0 < open_palm_of_flags [a, b, c, d])) ∧
    (1 ≤ [a, b, c, d].count true → [a, b, c, d].count true ≤ 3 →
      closed_fist_of_flags [a, b, c, d] = 0 ∧ open_palm_of_flags [a, b, c, d] = 0) := by
  rcases a <;> rcases b <;> rcases c <;> rcases d <;>
    norm_num [closed_fist_of_flags, open_palm_of_flags]

/-- C7: on every hand the ClosedFist and OpenPalm detectors are never both
positive, and when 1–3 of the four non-thumb fingers are extended both
return 0. -/
theorem fist_palm_exclusive (s : ℚ → ℚ) (landmarks : List Pt) :
    (¬(0 < detect_closed_fist s landmarks ∧ 0 < detect_open_palm s landmarks)) ∧
    (1 ≤ extended_count s landmarks → extended_count s landmarks ≤ 3 →
      detect_closed_fist s landmarks = 0 ∧ detect_open_palm s landmarks = 0) := by
  unfold detect_closed_fist detect_open_palm extended_count fingers_extended
  exact fist_palm_flags_lemma _ _ _ _

/-- Witness for C7: on `demoHand` (with the identity as the norm routine)
exactly two fingers are extended and both detectors yield 0. -/
theorem fist_palm_exclusive_witness :
    1 ≤ extended_count (fun q => q) demoHand ∧
    extended_count (fun q => q) demoHand ≤ 3 ∧
    (¬(0 < detect_closed_fist (fun q => q) demoHand ∧
        0 < detect_open_palm (fun q => q) demoHand)) ∧
    detect_closed_fist (fun q => q) demoHand = 0 ∧
    detect_open_palm (fun q => q) demoHand = 0 := by
  have hcount : extended_count (fun q => q) demoHand = 2 := by
    norm_num [extended_count, fingers_extended, is_finger_extended, lm, sqPlanar,
      finger_extended_threshold, demoHand]
  have h1 : 1 ≤ extended_count (fun q => q) demoHand := by rw [hcount]; norm_num
  have h3 : extended_count (fun q => q) demoHand ≤ 3 := by rw [hcount]; norm_num
  exact ⟨h1, h3, (fist_palm_exclusive (fun q => q) demoHand).1,
    ((fist_palm_exclusive (fun q => q) demoHand).2 h1 h3).1,
    ((fist_palm_exclusive (fun q => q) demoHand).2 h1 h3).2⟩

/-- Truncation toward zero maps a rational lying between two integers to an
integer between them. -/
theorem ratTrunc_between {a b : ℤ} {x : ℚ} (ha : (a : ℚ) ≤ x) (hb : x ≤ (b : ℚ)) :
    a ≤ ratTrunc x ∧ ratTrunc x ≤ b := by
  unfold ratTrunc
  split
  · exact ⟨Int.le_floor.mpr ha, by
      have := (Int.floor_le_floor hb).trans_eq (Int.floor_intCast b)
      exact this⟩
  · exact ⟨by
      have := (Int.ceil_intCast (α := ℚ) a).symm.trans_le (Int.ceil_le_ceil ha)
      exact this,
      Int.ceil_le.mpr hb⟩

/-- Truncation toward zero fixes integers. -/
theorem ratTrunc_intCast (n : ℤ) : ratTrunc (n : ℚ) = n := by
  unfold ratTrunc
  split
  · exact Int.floor_intCast n
  · exact Int.ceil_intCast n

/-- One smoothing step stays between the previous position and the target. -/
theorem mouse_smooth_step_between (α : ℚ) (h0 : 0 ≤ α) (h1 : α ≤ 1) (t p : ℤ) :
    (p ≤ t → p ≤ mouse_smooth_step α t p ∧ mouse_smooth_step α t p ≤ t) ∧
    (t ≤ p → t ≤ mouse_smooth_step α t p ∧ mouse_smooth_step α t p ≤ p) := by
  unfold mouse_smooth_step
  constructor
  · intro hlt
    have hd : (0 : ℚ) ≤ (t : ℚ) - p := by
      rw [sub_nonneg]
      exact_mod_cast hlt
    refine ratTrunc_between ?_ ?_
    · nlinarith [mul_nonneg hd (by linarith : (0 : ℚ) ≤ 1 - α)]
    · nlinarith [mul_le_of_le_one_right hd (by linarith : (1 : ℚ) - α ≤ 1)]
  · intro hgt
    have hd : (0 : ℚ) ≤ (p : ℚ) - t := by
      rw [sub_nonneg]
      exact_mod_cast hgt
    refine ratTrunc_between ?_ ?_
    · nlinarith [mul_le_of_le_one_right hd (by linarith : (1 : ℚ) - α ≤ 1)]
    · nlinarith [mul_nonneg hd (by linarith : (0 : ℚ) ≤ 1 - α)]

/-- A fixed point of the smoothing step lies within `1 / (1 − α)` of the
target. -/
theorem mouse_smooth_step_fixed_dist (α : ℚ) (h1 : α < 1) (t p : ℤ)
    (hfix : mouse_smooth_step α t p = p) :
    |(p : ℚ) - t| < 1 / (1 - α) := by
  have hβ : (0 : ℚ) < 1 - α := by linarith
  set x : ℚ := (p : ℚ) + ((t : ℚ) - (p : ℚ)) * (1 - α) with hxdef
  have hδ : |((t : ℚ) - p) * (1 - α)| < 1 := by
    unfold mouse_smooth_step at hfix
    rw [← hxdef] at hfix
    unfold ratTrunc at hfix
    rw [abs_lt]
    by_cases hx : 0 ≤ x
    · rw [if_pos hx] at hfix
      have hc := Int.floor_eq_iff.mp hfix
      push_cast at hc
      exact ⟨by linarith [hc.1], by linarith [hc.2]⟩
    · rw [if_neg hx] at hfix
      have hc := Int.ceil_eq_iff.mp hfix
      push_cast at hc
      exact ⟨by linarith [hc.1], by linarith [hc.2]⟩
  have habs : |(p : ℚ) - t| * (1 - α) < 1 := by
    rw [abs_mul, abs_of_pos hβ] at hδ
    rw [abs_sub_comm]
    exact hδ
  rw [lt_div_iff₀ hβ]
  exact habs

/-- Iterating the smoothing step on a fixed pixel target becomes constant
after finitely many steps, at a fixed point within `1 / (1 − α)` of the
target. -/
theorem mouse_smooth_step_converges (α : ℚ) (h0 : 0 ≤ α) (h1 : α < 1) (t p0 : ℤ) :
    ∃ (N : ℕ) (pStar : ℤ), (∀ k, N ≤ k → (mouse_smooth_step α t)^[k] p0 = pStar) ∧
      |(pStar : ℚ) - t| < 1 / (1 - α) := by
  by_cases hfix : mouse_smooth_step α t p0 = p0
  · exact ⟨0, p0, fun k _ => Function.iterate_fixed hfix k,
      mouse_smooth_step_fixed_dist α h1 t p0 hfix⟩
  · have hstep := mouse_smooth_step_between α h0 h1.le t p0
    have htfix : mouse_smooth_step α t t = t := by
      unfold mouse_smooth_step
      rw [show ((t : ℚ) + ((t : ℚ) - (t : ℚ)) * (1 - α)) = (t : ℚ) by ring]
      exact ratTrunc_intCast t
    have hdec : (t - mouse_smooth_step α t p0).natAbs < (t - p0).natAbs := by
      rcases lt_trichotomy p0 t with hlt | heq | hgt
      · have hb := hstep.1 hlt.le
        omega
      · subst heq
        exact absurd htfix hfix
      · have hb := hstep.2 hgt.le
        omega
    obtain ⟨N, pStar, hconst, hbound⟩ :=
      mouse_smooth_step_converges α h0 h1 t (mouse_smooth_step α t p0)
    refine ⟨N + 1, pStar, ?_, hbound⟩
    intro k hk
    obtain ⟨j, rfl⟩ : ∃ j, k = j + 1 := ⟨k - 1, by omega⟩
    rw [Function.iterate_succ_apply]
    exact hconst j (by omega)
termination_by (t - p0).natAbs

/-- The controller state with its stored pointer position replaced. -/
def withPos (st : Ctrl) (p : ℤ × ℤ) : Ctrl := { st with last_mouse_position := some p }

/-- One `move_mouse` call, seen on the state, applies the smoothing step to
each coordinate when a previous position exists. -/
theorem move_mouse_state_step (st : Ctrl) (nx ny : ℚ) (px py : ℤ)
    (hes : st.emergency_stop = false) (hl : st.last_mouse_position = some (px, py)) :
    (move_mouse st nx ny).2 = withPos st
      (mouse_smooth_step st.mouse_smoothing (clamped_target nx st.screen_width) px,
       mouse_smooth_step st.mouse_smoothing (clamped_target ny st.screen_height) py) := by
  unfold move_mouse withPos
  rw [hl]
  simp [hes]

/-- Characterization of iterated `move_mouse` calls: the stored position is
the coordinatewise iterate of the smoothing step. -/
theorem move_mouse_iter_char (st : Ctrl) (nx ny : ℚ) (px py : ℤ)
    (hes : st.emergency_stop = false) (hl : st.last_mouse_position = some (px, py)) :
    ∀ k : ℕ, move_mouse_iter st nx ny k = withPos st
      ((mouse_smooth_step st.mouse_smoothing (clamped_target nx st.screen_width))^[k] px,
       (mouse_smooth_step st.mouse_smoothing (clamped_target ny st.screen_height))^[k] py) := by
  intro k
  induction k with
  | zero =>
    unfold move_mouse_iter withPos
    rw [Function.iterate_zero_apply]
    cases st
    simp_all
  | succ k ih =>
    have hstep := move_mouse_state_step
      (withPos st
        ((mouse_smooth_step st.mouse_smoothing (clamped_target nx st.screen_width))^[k] px,
         (mouse_smooth_step st.mouse_smoothing (clamped_target ny st.screen_height))^[k] py))
      nx ny _ _ hes rfl
    unfold move_mouse_iter at ih ⊢
    rw [Function.iterate_succ_apply', ih, hstep]
    simp [withPos, Function.iterate_succ_apply']

/-- C4 (amended): with `α < 1`, repeatedly calling `move_mouse` on a fixed
normalized target makes the stored position constant after finitely many
steps, at a fixed point within `1 / (1 − α)` of the clamped pixel target —
but, because the blended position is truncated to an integer, it need not
reach the target itself. -/
theorem move_mouse_iter_converges (st : Ctrl) (nx ny : ℚ) (px py : ℤ)
    (hes : st.emergency_stop = false) (hl : st.last_mouse_position = some (px, py))
    (h0 : 0 ≤ st.mouse_smoothing) (h1 : st.mouse_smoothing < 1) :
    ∃ (N : ℕ) (qx qy : ℤ),
      (∀ k, N ≤ k → (move_mouse_iter st nx ny k).last_mouse_position = some (qx, qy)) ∧
      |(qx : ℚ) - clamped_target nx st.screen_width| < 1 / (1 - st.mouse_smoothing) ∧
      |(qy : ℚ) - clamped_target ny st.screen_height| < 1 / (1 - st.mouse_smoothing) := by
  obtain ⟨Nx, qx, hcx, hbx⟩ := mouse_smooth_step_converges st.mouse_smoothing h0 h1
    (clamped_target nx st.screen_width) px
  obtain ⟨Ny, qy, hcy, hby⟩ := mouse_smooth_step_converges st.mouse_smoothing h0 h1
    (clamped_target ny st.screen_height) py
  refine ⟨max Nx Ny, qx, qy, ?_, hbx, hby⟩
  intro k hk
  rw [move_mouse_iter_char st nx ny px py hes hl k]
  rw [hcx k (le_trans (le_max_left _ _) hk), hcy k (le_trans (le_max_right _ _) hk)]
  rfl

/-- The reachable stuck state for the C4 counterexample: pointer stored at
pixel `(4, 4)` on a 1920×1080 screen with the default smoothing `0.3`. -/
def stuckStart : Ctrl := { ctrlInit 1920 1080 with last_mouse_position := some (4, 4) }

/-- The state `stuckStart` is reached by a single `move_mouse` call from a fresh
controller. -/
theorem stuckStart_reachable :
    (move_mouse (ctrlInit 1920 1080) (1 / 480) (1 / 270)).2 = stuckStart := by
  unfold move_mouse ctrlInit stuckStart clamped_target ratTrunc
  norm_num [ctrlInit]

/-- Pointing at pixel `(5, 5)` from `stuckStart` is a fixed point of
`move_mouse`: `int(4 + (5 − 4) * 0.7) = 4`. -/
theorem stuckStart_fixed :
    (move_mouse stuckStart (11 / 3840) (1 / 216)).2 = stuckStart := by
  unfold move_mouse stuckStart ctrlInit clamped_target mouse_smooth_step ratTrunc
  norm_num

/-- C4 counterexample: from the reachable state `stuckStart`, iterating
`move_mouse` on the in-bounds target pixel `(5, 5)` (smoothing `0.3 < 1`)
keeps the stored x-position at 4 forever, so `|output − target|` does not
tend to 0. -/
theorem move_mouse_convergence_cex :
    ¬(∀ ε : ℚ, 0 < ε → ∃ N : ℕ, ∀ k, N ≤ k →
        |((((move_mouse_iter stuckStart (11 / 3840) (1 / 216) k).last_mouse_position.getD
            (0, 0)).1 : ℚ) - 5)| < ε) := by
  intro hclaim
  have hconst : ∀ k, move_mouse_iter stuckStart (11 / 3840) (1 / 216) k = stuckStart :=
    fun k => Function.iterate_fixed stuckStart_fixed k
  obtain ⟨N, hN⟩ := hclaim 1 one_pos
  have := hN N le_rfl
  rw [hconst N] at this
  norm_num [stuckStart, ctrlInit] at this

/-- Witness for the amended C4 starting from the concrete state
`stuckStart`. -/
theorem move_mouse_iter_converges_witness :
    stuckStart.emergency_stop = false ∧
    stuckStart.last_mouse_position = some (4, 4) ∧
    0 ≤ stuckStart.mouse_smoothing ∧ stuckStart.mouse_smoothing < 1 ∧
    ∃ (N : ℕ) (qx qy : ℤ),
      (∀ k, N ≤ k →
        (move_mouse_iter stuckStart (11 / 3840) (1 / 216) k).last_mouse_position =
          some (qx, qy)) ∧
      |(qx : ℚ) - clamped_target (11 / 3840) stuckStart.screen_width| <
        1 / (1 - stuckStart.mouse_smoothing) ∧
      |(qy : ℚ) - clamped_target (1 / 216) stuckStart.screen_height| <
        1 / (1 - stuckStart.mouse_smoothing) :=
  ⟨rfl, rfl, by norm_num [stuckStart, ctrlInit], by norm_num [stuckStart, ctrlInit],
   move_mouse_iter_converges stuckStart (11 / 3840) (1 / 216) 4 4 rfl rfl
     (by norm_num [stuckStart, ctrlInit]) (by norm_num [stuckStart, ctrlInit])⟩

/-- Membership in the dict-key list `firstOccs` is membership in the
underlying list. -/
theorem firstOccs_mem (l : List GestureType) (g : GestureType) :
    g ∈ firstOccs l ↔ g ∈ l := by
  have aux : ∀ (l acc : List GestureType),
      g ∈ l.foldl (fun (acc : List GestureType) x => if x ∈ acc then acc else acc ++ [x]) acc ↔
        g ∈ acc ∨ g ∈ l := by
    intro l
    induction l with
    | nil => simp
    | cons x l ih =>
      intro acc
      by_cases hx : x ∈ acc
      · rw [List.foldl_cons, if_pos hx, ih]
        simp only [List.mem_cons]
        constructor
        · rintro (hg | hg)
          · exact Or.inl hg
          · exact Or.inr (Or.inr hg)
        · rintro (hg | rfl | hg)
          · exact Or.inl hg
          · exact Or.inl hx
          · exact Or.inr hg
      · rw [List.foldl_cons, if_neg hx, ih]
        simp only [List.mem_append, List.mem_singleton, List.mem_cons]
        tauto
  rw [firstOccs, aux]
  simp

/-- The confidence of a window entry is stored in its class's group. -/
theorem mem_confsOf {h : List HistEntry} {p : HistEntry} (hp : p ∈ h) :
    p.2 ∈ confsOf h p.1 := by
  unfold confsOf
  rw [List.mem_map]
  exact ⟨p, List.mem_filter.mpr ⟨hp, by simp⟩, rfl⟩

/-- Every stored group confidence comes from the window. -/
theorem confsOf_subset {h : List HistEntry} {g : GestureType} {x : ℚ}
    (hx : x ∈ confsOf h g) : ∃ p ∈ h, p.2 = x := by
  unfold confsOf at hx
  rw [List.mem_map] at hx
  obtain ⟨p, hp, rfl⟩ := hx
  exact ⟨p, (List.mem_filter.mp hp).1, rfl⟩

/-- For a class present in the window, `score = count × average` collapses
to the plain sum of its stored confidences. -/
theorem scoreOf_eq_sum {h : List HistEntry} {g : GestureType}
    (hg : g ∈ h.map Prod.fst) : scoreOf h g = (confsOf h g).sum := by
  have hne : confsOf h g ≠ [] := by
    rw [List.mem_map] at hg
    obtain ⟨p, hp, rfl⟩ := hg
    exact fun hnil => by simpa [hnil] using mem_confsOf hp
  have hlen : ((confsOf h g).length : ℚ) ≠ 0 :=
    Nat.cast_ne_zero.mpr (List.length_pos.mpr hne).ne'
  unfold scoreOf avgOf
  rw [mul_comm, div_mul_cancel₀ _ hlen]

/-- The strict-improvement scan of `_get_smoothed_gesture` returns either
its initial accumulator or a scanned class paired with its own score, never
decreases the accumulated score, and dominates every scanned score. -/
theorem bestStep_foldl (h : List HistEntry) (l : List GestureType) :
    ∀ b : HistEntry,
      (l.foldl (bestStep h) b = b ∨
        ((l.foldl (bestStep h) b).1 ∈ l ∧
          (l.foldl (bestStep h) b).2 = scoreOf h (l.foldl (bestStep h) b).1)) ∧
      b.2 ≤ (l.foldl (bestStep h) b).2 ∧
      ∀ g ∈ l, scoreOf h g ≤ (l.foldl (bestStep h) b).2 := by
  induction l with
  | nil => simp
  | cons g l ih =>
    intro b
    rw [List.foldl_cons]
    obtain ⟨h1, h2, h3⟩ := ih (bestStep h b g)
    by_cases hc : b.2 < scoreOf h g
    · have hstep : bestStep h b g = (g, scoreOf h g) := by
        unfold bestStep
        rw [if_pos hc]
      refine ⟨?_, ?_, ?_⟩
      · rcases h1 with h1 | ⟨hm, hs⟩
        · right
          rw [h1, hstep]
          exact ⟨List.mem_cons_self _ _, rfl⟩
        · right
          exact ⟨List.mem_cons_of_mem _ hm, hs⟩
      · calc b.2 ≤ (bestStep h b g).2 := by rw [hstep]; exact hc.le
          _ ≤ _ := h2
      · intro g' hg'
        rcases List.mem_cons.mp hg' with rfl | hmem
        · calc scoreOf h g' = (bestStep h b g').2 := by rw [hstep]
            _ ≤ _ := h2
        · exact h3 g' hmem
    · have hstep : bestStep h b g = b := by
        unfold bestStep
        rw [if_neg hc]
      rw [hstep] at h1 h2 h3 ⊢
      refine ⟨?_, h2, ?_⟩
      · rcases h1 with h1 | ⟨hm, hs⟩
        · exact Or.inl h1
        · exact Or.inr ⟨List.mem_cons_of_mem _ hm, hs⟩
      · intro g' hg'
        rcases List.mem_cons.mp hg' with rfl | hmem
        · exact le_trans (not_lt.mp hc) h2
        · exact h3 g' hmem

/-- C8 counterexample: on the window `[(CLOSED_FIST, 0)]` the resolver
outputs the null class, which is not a class present in the window. -/
theorem smoothed_gesture_cex :
    get_smoothed_gesture [(GestureType.CLOSED_FIST, 0)] = (GestureType.NONE, 0) ∧
    ¬((get_smoothed_gesture [(GestureType.CLOSED_FIST, 0)]).1 ∈
        ([((GestureType.CLOSED_FIST : GestureType), (0 : ℚ))].map Prod.fst)) := by
  have h1 : get_smoothed_gesture [(GestureType.CLOSED_FIST, 0)] = (GestureType.NONE, 0) := by
    unfold get_smoothed_gesture firstOccs bestStep scoreOf avgOf confsOf
    norm_num
    intro hcontra
    exact absurd hcontra (by decide)
  refine ⟨h1, ?_⟩
  rw [h1]
  simp

/-- C8 (amended): on a non-empty window of nonnegative confidences that
either contains a positive confidence or contains the null class, the
resolver outputs a class present in the window, its score
(count × average confidence) is maximal among the classes present, and its
output confidence is that class's average stored confidence.  (On an
all-zero window without the null class, the code instead returns
`(NONE, 0.0)` with `NONE` absent from the window.) -/
theorem smoothed_gesture_maximal (h : List HistEntry)
    (hne : h ≠ [])
    (hnn : ∀ p ∈ h, 0 ≤ p.2)
    (hok : (∃ p ∈ h, 0 < p.2) ∨ GestureType.NONE ∈ h.map Prod.fst) :
    (get_smoothed_gesture h).1 ∈ h.map Prod.fst ∧
    (∀ g ∈ h.map Prod.fst, scoreOf h g ≤ scoreOf h (get_smoothed_gesture h).1) ∧
    (get_smoothed_gesture h).2 = avgOf h (get_smoothed_gesture h).1 := by
  have hconfnn : ∀ g : GestureType, ∀ x ∈ confsOf h g, 0 ≤ x := by
    intro g x hx
    obtain ⟨p, hp, rfl⟩ := confsOf_subset hx
    exact hnn p hp
  obtain ⟨hcase, _hmono, hmax⟩ :=
    bestStep_foldl h (firstOccs (h.map Prod.fst)) (GestureType.NONE, 0)
  have hgs : get_smoothed_gesture h =
      (((firstOccs (h.map Prod.fst)).foldl (bestStep h) (GestureType.NONE, 0)).1,
        if ((firstOccs (h.map Prod.fst)).foldl (bestStep h) (GestureType.NONE, 0)).1 ∈
            firstOccs (h.map Prod.fst) then
          avgOf h (((firstOccs (h.map Prod.fst)).foldl (bestStep h) (GestureType.NONE, 0)).1)
        else 0) := by
    unfold get_smoothed_gesture
    rw [if_neg hne]
  set r := (firstOccs (h.map Prod.fst)).foldl (bestStep h) (GestureType.NONE, 0) with hrdef
  rcases hcase with hrb | ⟨hmem, hscore⟩
  · -- the scan never improved: every present score is ≤ 0
    have hr2 : r.2 = 0 := by rw [hrb]
    have hnone : GestureType.NONE ∈ h.map Prod.fst := by
      rcases hok with ⟨p, hp, hpos⟩ | hn
      · exfalso
        have hpmem : p.1 ∈ h.map Prod.fst := List.mem_map.mpr ⟨p, hp, rfl⟩
        have hsum : p.2 ≤ (confsOf h p.1).sum :=
          List.single_le_sum (hconfnn p.1) _ (mem_confsOf hp)
        have hle := hmax p.1 ((firstOccs_mem _ _).mpr hpmem)
        rw [scoreOf_eq_sum hpmem, hr2] at hle
        linarith
      · exact hn
    have hr1 : r.1 = GestureType.NONE := by rw [hrb]
    have hrmem : r.1 ∈ firstOccs (h.map Prod.fst) := by
      rw [hr1]
      exact (firstOccs_mem _ _).mpr hnone
    have hsumN : (confsOf h GestureType.NONE).sum = 0 := by
      have hle := hmax GestureType.NONE ((firstOccs_mem _ _).mpr hnone)
      rw [scoreOf_eq_sum hnone, hr2] at hle
      exact le_antisymm hle (List.sum_nonneg (hconfnn GestureType.NONE))
    refine ⟨?_, ?_, ?_⟩
    · rw [hgs, hr1]
      exact hnone
    · intro g hg
      have hle := hmax g ((firstOccs_mem _ _).mpr hg)
      rw [hgs]
      dsimp only
      rw [hr1, scoreOf_eq_sum hnone, hsumN]
      rw [hr2] at hle
      exact hle
    · rw [hgs]
      dsimp only
      rw [if_pos hrmem]
  · -- the scan selected a present class carrying its own score
    have hrmem : r.1 ∈ h.map Prod.fst := (firstOccs_mem _ _).mp hmem
    refine ⟨?_, ?_, ?_⟩
    · rw [hgs]
      exact hrmem
    · intro g hg
      have hle := hmax g ((firstOccs_mem _ _).mpr hg)
      rw [hscore] at hle
      rw [hgs]
      exact hle
    · rw [hgs]
      dsimp only
      rw [if_pos hmem]

/-- Witness for the amended C8 on the window
`[(CLOSED_FIST, 3/4), (NONE, 0)]`. -/
theorem smoothed_gesture_maximal_witness :
    ([((GestureType.CLOSED_FIST : GestureType), (3 / 4 : ℚ)), (GestureType.NONE, 0)] ≠ []) ∧
    (get_smoothed_gesture
        [(GestureType.CLOSED_FIST, 3 / 4), (GestureType.NONE, 0)]).1 ∈
      ([((GestureType.CLOSED_FIST : GestureType), (3 / 4 : ℚ)),
        (GestureType.NONE, 0)].map Prod.fst) ∧
    (∀ g ∈ ([((GestureType.CLOSED_FIST : GestureType), (3 / 4 : ℚ)),
        (GestureType.NONE, 0)].map Prod.fst),
      scoreOf [(GestureType.CLOSED_FIST, 3 / 4), (GestureType.NONE, 0)] g ≤
        scoreOf [(GestureType.CLOSED_FIST, 3 / 4), (GestureType.NONE, 0)]
          (get_smoothed_gesture
            [(GestureType.CLOSED_FIST, 3 / 4), (GestureType.NONE, 0)]).1) ∧
    (get_smoothed_gesture [(GestureType.CLOSED_FIST, 3 / 4), (GestureType.NONE, 0)]).2 =
      avgOf [(GestureType.CLOSED_FIST, 3 / 4), (GestureType.NONE, 0)]
        (get_smoothed_gesture
          [(GestureType.CLOSED_FIST, 3 / 4), (GestureType.NONE, 0)]).1 := by
  have hmain := smoothed_gesture_maximal
    [(GestureType.CLOSED_FIST, 3 / 4), (GestureType.NONE, 0)]
    (by simp)
    (by
      intro p hp
      rcases List.mem_cons.mp hp with rfl | hp
      · norm_num
      · rcases List.mem_cons.mp hp with rfl | hp
        · norm_num
        · simp at hp)
    (Or.inl ⟨(GestureType.CLOSED_FIST, 3 / 4), by simp, by norm_num⟩)
  exact ⟨by simp, hmain.1, hmain.2.1, hmain.2.2⟩

end NeuralHand
